import Mathlib

/-!
Shallow embedding of the flight-search aggregation and filtering core of the
repository (the `Index` page component): the `filterAndSortFlights` pipeline,
the `handleSearch` fan-out coordinator state updates, the `handleShowMore`
reveal ladder and the post-fan-out filter auto-adjustment, together with
proofs about them.
-/

/-- Airline identifiers: the source stores `'VJ' | 'VNA'` string literals. -/
inductive Airline where
  | VJ
  | VNA
deriving DecidableEq

/-- One leg of a flight (`departure` or `return` in the source records). -/
structure Leg where
  airport : String
  date : String
  time : String
  stops : Nat
deriving DecidableEq

/-- The normalized flight record consumed by the pipeline.  The source field
`return` is a reserved word in Lean, so it is named `ret` here. -/
structure Flight where
  id : String
  airline : Airline
  price : Nat
  departure : Leg
  ret : Option Leg
  duration : String
  baggageType : String
  availableSeats : Nat
deriving DecidableEq

/-- The `FilterOptions` record of the source: `airlines`, `showCheapestOnly`,
`directFlightsOnly`, `show2pc`, `sortBy`.  `sortBy` is a string at the
JavaScript runtime, matched against `'price' | 'duration' | 'departure'`. -/
structure FilterOptions where
  airlines : List Airline
  showCheapestOnly : Bool
  directFlightsOnly : Bool
  show2pc : Bool
  sortBy : String
deriving DecidableEq

/-- Direct-flight test of the source: for one-way flights only the departure
leg is checked; for round trips both legs must have zero stops. -/
def directPred (f : Flight) : Bool :=
  match f.ret with
  | none => f.departure.stops == 0
  | some r => f.departure.stops == 0 && r.stops == 0

/-- The 2pc predicate of the source, with JavaScript operator precedence:
`flight.airline === 'VJ' || flight.airline === 'VNA' && flight.baggageType === 'VFR'`,
i.e. `VJ ∨ (VNA ∧ VFR)`. -/
def twoBagPred (f : Flight) : Bool :=
  f.airline == Airline.VJ || (f.airline == Airline.VNA && f.baggageType == "VFR")

/-- Stage 1 of `filterAndSortFlights`: airline inclusion, applied only when
`filters.airlines.length > 0`. -/
def airlineStep (o : FilterOptions) (l : List Flight) : List Flight :=
  if 0 < o.airlines.length then l.filter (fun f => o.airlines.contains f.airline) else l

/-- Stage 2 of `filterAndSortFlights`: direct flights only. -/
def directStep (o : FilterOptions) (l : List Flight) : List Flight :=
  if o.directFlightsOnly then l.filter directPred else l

/-- Stage 3 of `filterAndSortFlights`: the 2pc filter. -/
def bagStep (o : FilterOptions) (l : List Flight) : List Flight :=
  if o.show2pc then l.filter twoBagPred else l

/-- JavaScript `array.reduce((prev, current) => prev.price < current.price ? prev : current)`
on the non-empty array `x :: xs`: a left fold keeping `prev` only on a strict
price decrease, so on ties the later element wins. -/
def jsReduceMin (x : Flight) (xs : List Flight) : Flight :=
  xs.foldl (fun prev cur => if prev.price < cur.price then prev else cur) x

/-- `vjFlights.length > 0 ? vjFlights.reduce(...) : null` for one airline
group: the cheapest flight of airline `a` in `l`, if any. -/
def cheapOpt (a : Airline) (l : List Flight) : Option Flight :=
  match l.filter (fun f => f.airline == a) with
  | [] => none
  | x :: xs => some (jsReduceMin x xs)

/-- Stage 4 of `filterAndSortFlights`: `[cheapestVJ, cheapestVNA].filter(Boolean)`. -/
def cheapestStep (o : FilterOptions) (l : List Flight) : List Flight :=
  if o.showCheapestOnly then (cheapOpt Airline.VJ l).toList ++ (cheapOpt Airline.VNA l).toList
  else l

/-- Digit extraction and parse of `parseInt(duration.replace(/[^\d]/g, ''))`:
`none` models the `NaN` produced when the duration holds no digit. -/
def parseDurationKey (s : String) : Option Nat :=
  let ds := s.data.filter Char.isDigit
  match ds with
  | [] => none
  | _ :: _ => some (ds.foldl (fun n c => 10 * n + (c.toNat - 48)) 0)

/-- Character-code lexicographic comparison modelling
`String.prototype.localeCompare` on the plain ASCII time strings of the data. -/
def lexCmp : List Char → List Char → Int
  | [], [] => 0
  | [], _ :: _ => -1
  | _ :: _, [] => 1
  | a :: as, b :: bs =>
    if a.toNat < b.toNat then -1
    else if b.toNat < a.toNat then 1
    else lexCmp as bs

/-- The comparator of the `filtered.sort((a, b) => ...)` switch.  The
`duration` branch returns `+0` when a parse yields `NaN`, as specified for
`Array.prototype.sort` comparator results.  The `default` branch returns 0. -/
def flightCmp (sortBy : String) (a b : Flight) : Int :=
  if sortBy = "price" then (a.price : Int) - (b.price : Int)
  else if sortBy = "duration" then
    match parseDurationKey a.duration, parseDurationKey b.duration with
    | some x, some y => (x : Int) - (y : Int)
    | _, _ => 0
  else if sortBy = "departure" then lexCmp a.departure.time.data b.departure.time.data
  else 0

/-- Insert one element into an already-processed list, placing it before the
first element it compares strictly below: the stable-insertion step. -/
def insertCmp (cmp : Flight → Flight → Int) (a : Flight) : List Flight → List Flight
  | [] => [a]
  | b :: bs => if cmp a b < 0 then a :: b :: bs else b :: insertCmp cmp a bs

/-- Stable sort by a three-way comparator, realizing the result required of
`Array.prototype.sort` (stable since ES2019) for a consistent comparator. -/
def sortCmp (cmp : Flight → Flight → Int) (l : List Flight) : List Flight :=
  l.foldl (fun acc a => insertCmp cmp a acc) []

/-- Stage 5 of `filterAndSortFlights`: the sort. -/
def sortStep (o : FilterOptions) (l : List Flight) : List Flight :=
  sortCmp (flightCmp o.sortBy) l

/-- Stages 1–3 of the pipeline: the pre-reduction filtered set. -/
def preFiltered (o : FilterOptions) (l : List Flight) : List Flight :=
  bagStep o (directStep o (airlineStep o l))

/-- The full `filterAndSortFlights` pipeline of the source. -/
def filterAndSortFlights (o : FilterOptions) (l : List Flight) : List Flight :=
  sortStep o (cheapestStep o (preFiltered o l))

/-- Aliasing model of the source's in-place `filtered.sort(...)`: `filtered`
starts as the very array passed in and is replaced by a fresh array exactly
when one of the four filter stages applies, so the caller's array is mutated
(sorted in place) precisely when no stage applies; this function returns what
the caller's array holds after `filterAndSortFlights` returns. -/
def inputAfterEvaluate (o : FilterOptions) (l : List Flight) : List Flight :=
  if o.airlines.isEmpty && !o.directFlightsOnly && !o.show2pc && !o.showCheapestOnly then
    filterAndSortFlights o l
  else l

/-- The filter state installed at the start of each search
(`handleSearch`'s reset) and on first render. -/
def resetFilters (al : List Airline) : FilterOptions :=
  { airlines := al, showCheapestOnly := true, directFlightsOnly := true,
    show2pc := true, sortBy := "price" }

/-- The `handleShowMore` click handler: first click clears
`showCheapestOnly`, second clears `directFlightsOnly`, and the fallback
branch clears `show2pc`. -/
def handleShowMore (prev : FilterOptions) : FilterOptions :=
  if prev.showCheapestOnly then { prev with showCheapestOnly := false }
  else if prev.directFlightsOnly then { prev with directFlightsOnly := false }
  else { prev with show2pc := false }

/-- The post-fan-out filter adjustment of `handleSearch`:
`hasDirectFlights = allFlights.some(f => f.departure.stops === 0)` (departure
leg only) and `hasVfr2pc = allFlights.some(f => f.airline === 'VNA' && f.baggageType === 'VFR')`
(VNA with VFR only), each flag kept only when its witness exists. -/
def autoAdjust (allFlights : List Flight) (prev : FilterOptions) : FilterOptions :=
  let hasDirect := allFlights.any (fun f => f.departure.stops == 0)
  let hasVfr := allFlights.any (fun f => f.airline == Airline.VNA && f.baggageType == "VFR")
  { prev with
    directFlightsOnly := if hasDirect then prev.directFlightsOnly else false,
    show2pc := if hasVfr then prev.show2pc else false }

/-- The component state touched by the search coordinator. -/
structure AppState where
  flights : List Flight
  loading : Bool
  error : Option String
  searchPerformed : Bool
  filters : FilterOptions
deriving DecidableEq

/-- Initial component state (`useState` initializers). -/
def initState : AppState :=
  { flights := [], loading := false, error := none, searchPerformed := false,
    filters := resetFilters [Airline.VJ, Airline.VNA] }

/-- Observable events of one `handleSearch` lifecycle.  `startSearch` is the
synchronous prefix of `handleSearch` (clear results, reset filters);
`sourceResolve` is a per-source `.then` callback firing with its batch —
note the callback closes over nothing identifying which search spawned it;
`sourceReject` is a per-source `.catch` (a `console.error`, no state change);
`fanoutSettled` is the `Promise.allSettled` continuation carrying the
fulfilled batches. -/
inductive Event where
  | startSearch (al : List Airline)
  | sourceResolve (batch : List Flight)
  | sourceReject (msg : String)
  | fanoutSettled (fulfilled : List (List Flight))

/-- State transition of the coordinator for one event, translated from the
corresponding state-setter calls in `handleSearch`. -/
def step (s : AppState) : Event → AppState
  | Event.startSearch al =>
    { s with loading := true, error := none, searchPerformed := true,
             flights := [], filters := resetFilters al }
  | Event.sourceResolve batch =>
    if 0 < batch.length then { s with flights := s.flights ++ batch } else s
  | Event.sourceReject _ => s
  | Event.fanoutSettled fulfilled =>
    let allFlights := fulfilled.foldl (fun acc b => acc ++ b) []
    { s with filters := autoAdjust allFlights s.filters, loading := false }

/-- Run a sequence of events from a state. -/
def runEvents (s : AppState) (es : List Event) : AppState :=
  es.foldl step s

/-- `shouldShowMoreButton = filters.showCheapestOnly || filters.directFlightsOnly`. -/
def shouldShowMoreButton (o : FilterOptions) : Bool :=
  o.showCheapestOnly || o.directFlightsOnly

/-- Sample flight builder used in concrete instances below. -/
def mkFlight (i : String) (a : Airline) (p : Nat) : Flight :=
  { id := i, airline := a, price := p,
    departure := { airport := "SGN", date := "2025-01-01", time := "08:00", stops := 0 },
    ret := none, duration := "2h05m", baggageType := "VFR", availableSeats := 9 }

/-- Inserting with `insertCmp` permutes the element onto the list. -/
theorem insertCmp_perm (cmp : Flight → Flight → Int) (a : Flight) (l : List Flight) :
    List.Perm (insertCmp cmp a l) (a :: l) := by
  induction l with
  | nil => exact List.Perm.refl _
  | cons b bs ih =>
    unfold insertCmp
    by_cases h : cmp a b < 0
    · simp [h]
    · simp only [h, if_false]
      exact List.Perm.trans (List.Perm.cons b ih) (List.Perm.swap a b bs)

/-- Auxiliary permutation fact for the insertion-sort fold. -/
theorem sortCmp_fold_perm (cmp : Flight → Flight → Int) (l acc : List Flight) :
    List.Perm (l.foldl (fun acc a => insertCmp cmp a acc) acc) (acc ++ l) := by
  induction l generalizing acc with
  | nil => simp
  | cons a as ih =>
    simp only [List.foldl_cons]
    have h1 := ih (insertCmp cmp a acc)
    have h2 : List.Perm (insertCmp cmp a acc ++ as) ((a :: acc) ++ as) :=
      (insertCmp_perm cmp a acc).append_right as
    have h3 : List.Perm ((a :: acc) ++ as) (acc ++ a :: as) := by
      simpa using
        (List.perm_middle.symm : List.Perm (a :: (acc ++ as)) (acc ++ a :: as))
    exact h1.trans (h2.trans h3)

/-- `sortCmp` permutes its input. -/
theorem sortCmp_perm (cmp : Flight → Flight → Int) (l : List Flight) :
    List.Perm (sortCmp cmp l) l := by
  simpa [sortCmp] using sortCmp_fold_perm cmp l []

/-- Absence of strict inversions: no later element compares strictly below an
earlier one. -/
def NoInv (cmp : Flight → Flight → Int) (l : List Flight) : Prop :=
  List.Pairwise (fun x y => ¬ cmp y x < 0) l

/-- Insertion preserves the no-inversion invariant, given asymmetry and
transitivity of the strict comparator. -/
theorem noInv_insertCmp (cmp : Flight → Flight → Int)
    (hasym : ∀ a b, cmp a b < 0 → ¬ cmp b a < 0)
    (htrans : ∀ a b c, cmp a b < 0 → cmp b c < 0 → cmp a c < 0)
    (a : Flight) (l : List Flight) (h : NoInv cmp l) : NoInv cmp (insertCmp cmp a l) := by
  induction l with
  | nil => simp [NoInv, insertCmp]
  | cons b bs ih =>
    rcases h with _ | ⟨hb, hbs⟩
    unfold insertCmp
    by_cases hab : cmp a b < 0
    · simp only [hab, if_true]
      refine List.Pairwise.cons ?_ (List.Pairwise.cons hb hbs)
      intro y hy
      rcases List.mem_cons.mp hy with rfl | hy
      · exact hasym a y hab
      · intro hya
        exact hb y hy (htrans y a b hya hab)
    · simp only [hab, if_false]
      refine List.Pairwise.cons ?_ (ih hbs)
      intro y hy
      have : y ∈ a :: bs := (insertCmp_perm cmp a bs).mem_iff.mp hy
      rcases List.mem_cons.mp this with rfl | hy'
      · exact hab
      · exact hb y hy'

/-- The insertion-sort fold always produces a no-inversion list. -/
theorem sortCmp_noInv (cmp : Flight → Flight → Int)
    (hasym : ∀ a b, cmp a b < 0 → ¬ cmp b a < 0)
    (htrans : ∀ a b c, cmp a b < 0 → cmp b c < 0 → cmp a c < 0)
    (l : List Flight) : NoInv cmp (sortCmp cmp l) := by
  have aux : ∀ (m acc : List Flight), NoInv cmp acc →
      NoInv cmp (m.foldl (fun acc a => insertCmp cmp a acc) acc) := by
    intro m
    induction m with
    | nil => intro acc h; simpa using h
    | cons a as ih =>
      intro acc h
      simpa using ih (insertCmp cmp a acc) (noInv_insertCmp cmp hasym htrans a acc h)
  exact aux l [] (by simp [NoInv])

/-- When the new element compares strictly below nothing in the list, the
insertion appends it at the end. -/
theorem insertCmp_append (cmp : Flight → Flight → Int) (a : Flight) (l : List Flight)
    (h : ∀ b ∈ l, ¬ cmp a b < 0) : insertCmp cmp a l = l ++ [a] := by
  induction l with
  | nil => rfl
  | cons b bs ih =>
    unfold insertCmp
    have hb : ¬ cmp a b < 0 := h b (by simp)
    simp only [hb, if_false, List.cons_append, List.cons.injEq, true_and]
    exact ih (fun c hc => h c (by simp [hc]))

/-- Sorting a no-inversion list leaves it unchanged. -/
theorem sortCmp_eq_self (cmp : Flight → Flight → Int) (l : List Flight)
    (h : NoInv cmp l) : sortCmp cmp l = l := by
  induction l using List.reverseRecOn with
  | nil => rfl
  | append_singleton l a ih =>
    have hsplit := List.pairwise_append.mp h
    have hl : NoInv cmp l := hsplit.1
    have hlast : ∀ b ∈ l, ¬ cmp a b < 0 := by
      intro b hb
      exact hsplit.2.2 b hb a (by simp)
    have : sortCmp cmp (l ++ [a]) = insertCmp cmp a (sortCmp cmp l) := by
      simp [sortCmp, List.foldl_append]
    rw [this, ih hl, insertCmp_append cmp a l hlast]

/-- Idempotence of the stable sort for an asymmetric, transitive strict
comparator. -/
theorem sortCmp_idem (cmp : Flight → Flight → Int)
    (hasym : ∀ a b, cmp a b < 0 → ¬ cmp b a < 0)
    (htrans : ∀ a b c, cmp a b < 0 → cmp b c < 0 → cmp a c < 0)
    (l : List Flight) : sortCmp cmp (sortCmp cmp l) = sortCmp cmp l :=
  sortCmp_eq_self cmp _ (sortCmp_noInv cmp hasym htrans l)

/-- The reduce result is one of the reduced elements. -/
theorem jsReduceMin_mem (x : Flight) (xs : List Flight) : jsReduceMin x xs ∈ x :: xs := by
  induction xs generalizing x with
  | nil => simp [jsReduceMin]
  | cons c cs ih =>
    have hstep : jsReduceMin x (c :: cs) =
        jsReduceMin (if x.price < c.price then x else c) cs := by
      simp [jsReduceMin]
    rw [hstep]
    have := ih (if x.price < c.price then x else c)
    rcases List.mem_cons.mp this with heq | hmem
    · rw [heq]
      by_cases h : x.price < c.price <;> simp [h]
    · simp [hmem]

/-- The reduce result has minimal price among the reduced elements. -/
theorem jsReduceMin_le (x : Flight) (xs : List Flight) :
    ∀ g ∈ x :: xs, (jsReduceMin x xs).price ≤ g.price := by
  induction xs generalizing x with
  | nil =>
    intro g hg
    rcases List.mem_cons.mp hg with rfl | h
    · simp [jsReduceMin]
    · simp at h
  | cons c cs ih =>
    intro g hg
    have hstep : jsReduceMin x (c :: cs) =
        jsReduceMin (if x.price < c.price then x else c) cs := by
      simp [jsReduceMin]
    rw [hstep]
    have hx : (jsReduceMin (if x.price < c.price then x else c) cs).price ≤
        (if x.price < c.price then x else c).price :=
      ih _ _ (by simp)
    have hboth : (if x.price < c.price then x else c).price ≤ x.price ∧
        (if x.price < c.price then x else c).price ≤ c.price := by
      by_cases h : x.price < c.price
      · simp [h]; omega
      · simp [h]; omega
    rcases List.mem_cons.mp hg with rfl | hg'
    · exact le_trans hx hboth.1
    · rcases List.mem_cons.mp hg' with rfl | hg''
      · exact le_trans hx hboth.2
      · exact ih _ g (List.mem_cons_of_mem _ hg'')

/-- The reduce result splits the list so that everything strictly after it is
strictly more expensive: among equal minimal prices the last occurrence wins. -/
theorem jsReduceMin_lastMin (x : Flight) (xs : List Flight) :
    ∃ l1 l2, x :: xs = l1 ++ jsReduceMin x xs :: l2 ∧
      ∀ g ∈ l2, (jsReduceMin x xs).price < g.price := by
  induction xs generalizing x with
  | nil => exact ⟨[], [], by simp [jsReduceMin], by simp⟩
  | cons c cs ih =>
    have hstep : jsReduceMin x (c :: cs) =
        jsReduceMin (if x.price < c.price then x else c) cs := by
      simp [jsReduceMin]
    rw [hstep]
    by_cases h : x.price < c.price
    · rw [if_pos h]
      obtain ⟨l1, l2, heq, hgt⟩ := ih x
      cases l1 with
      | nil =>
        simp only [List.nil_append, List.cons.injEq] at heq
        obtain ⟨hx, hcs⟩ := heq
        refine ⟨[], c :: cs, by rw [List.nil_append, ← hx], ?_⟩
        intro g hg
        rcases List.mem_cons.mp hg with rfl | hg'
        · rw [← hx]; exact h
        · exact hgt g (hcs ▸ hg')
      | cons hhd htl =>
        simp only [List.cons_append, List.cons.injEq] at heq
        obtain ⟨hx, hcs⟩ := heq
        refine ⟨x :: c :: htl, l2, ?_, hgt⟩
        conv_lhs => rw [hcs]
        simp
    · rw [if_neg h]
      obtain ⟨l1, l2, heq, hgt⟩ := ih c
      exact ⟨x :: l1, l2, by rw [List.cons_append, ← heq], hgt⟩

/-- A per-airline cheapest flight belongs to the group it reduces. -/
theorem cheapOpt_mem_filter (a : Airline) (l : List Flight) (f : Flight)
    (h : cheapOpt a l = some f) : f ∈ l.filter (fun g => g.airline == a) := by
  unfold cheapOpt at h
  rcases heq : l.filter (fun g => g.airline == a) with _ | ⟨x, xs⟩
  · rw [heq] at h; exact absurd h (by simp)
  · rw [heq] at h
    have : f = jsReduceMin x xs := by
      have := h
      simp at this
      exact this.symm
    rw [this, heq]
    exact jsReduceMin_mem x xs

/-- A per-airline cheapest flight is drawn from the list. -/
theorem cheapOpt_mem (a : Airline) (l : List Flight) (f : Flight)
    (h : cheapOpt a l = some f) : f ∈ l :=
  (List.mem_filter.mp (cheapOpt_mem_filter a l f h)).1

/-- A per-airline cheapest flight carries that airline. -/
theorem cheapOpt_airline (a : Airline) (l : List Flight) (f : Flight)
    (h : cheapOpt a l = some f) : f.airline = a := by
  have := (List.mem_filter.mp (cheapOpt_mem_filter a l f h)).2
  simpa using this

/-- A per-airline cheapest flight is at most as expensive as every same-airline
flight of the list. -/
theorem cheapOpt_min (a : Airline) (l : List Flight) (f : Flight)
    (h : cheapOpt a l = some f) : ∀ g ∈ l, g.airline = a → f.price ≤ g.price := by
  intro g hg hga
  unfold cheapOpt at h
  rcases heq : l.filter (fun g => g.airline == a) with _ | ⟨x, xs⟩
  · rw [heq] at h; exact absurd h (by simp)
  · rw [heq] at h
    have hf : f = jsReduceMin x xs := by
      have := h; simp at this; exact this.symm
    have hgmem : g ∈ l.filter (fun g => g.airline == a) :=
      List.mem_filter.mpr ⟨hg, by simp [hga]⟩
    rw [hf]
    exact jsReduceMin_le x xs g (heq ▸ hgmem)

/-- A per-airline cheapest flight splits its airline group into a prefix, the
flight itself, and a strictly-more-expensive tail: the last price minimum. -/
theorem cheapOpt_lastMin (a : Airline) (l : List Flight) (f : Flight)
    (h : cheapOpt a l = some f) :
    ∃ l1 l2, l.filter (fun g => g.airline == a) = l1 ++ f :: l2 ∧
      ∀ g ∈ l2, f.price < g.price := by
  unfold cheapOpt at h
  rcases heq : l.filter (fun g => g.airline == a) with _ | ⟨x, xs⟩
  · rw [heq] at h; exact absurd h (by simp)
  · rw [heq] at h
    have hf : f = jsReduceMin x xs := by
      have := h; simp at this; exact this.symm
    rw [hf, heq]
    exact jsReduceMin_lastMin x xs

/-- `cheapOpt` is `none` exactly when the airline group is empty. -/
theorem cheapOpt_eq_none (a : Airline) (l : List Flight) :
    cheapOpt a l = none ↔ l.filter (fun g => g.airline == a) = [] := by
  unfold cheapOpt
  rcases heq : l.filter (fun g => g.airline == a) with _ | ⟨x, xs⟩
  · simp [heq]
  · simp [heq]

/-- Filtering the two-element candidate list back by VJ recovers the VJ
candidate. -/
theorem kList_filter_VJ (l : List Flight) :
    ((cheapOpt Airline.VJ l).toList ++ (cheapOpt Airline.VNA l).toList).filter
      (fun f => f.airline == Airline.VJ) = (cheapOpt Airline.VJ l).toList := by
  rw [List.filter_append]
  have h1 : (cheapOpt Airline.VJ l).toList.filter (fun f => f.airline == Airline.VJ) =
      (cheapOpt Airline.VJ l).toList := by
    rcases h : cheapOpt Airline.VJ l with _ | f
    · simp
    · have := cheapOpt_airline Airline.VJ l f h
      simp [this]
  have h2 : (cheapOpt Airline.VNA l).toList.filter (fun f => f.airline == Airline.VJ) = [] := by
    rcases h : cheapOpt Airline.VNA l with _ | f
    · simp
    · have := cheapOpt_airline Airline.VNA l f h
      simp [this]
  rw [h1, h2, List.append_nil]

/-- Filtering the two-element candidate list back by VNA recovers the VNA
candidate. -/
theorem kList_filter_VNA (l : List Flight) :
    ((cheapOpt Airline.VJ l).toList ++ (cheapOpt Airline.VNA l).toList).filter
      (fun f => f.airline == Airline.VNA) = (cheapOpt Airline.VNA l).toList := by
  rw [List.filter_append]
  have h1 : (cheapOpt Airline.VJ l).toList.filter (fun f => f.airline == Airline.VNA) = [] := by
    rcases h : cheapOpt Airline.VJ l with _ | f
    · simp
    · have := cheapOpt_airline Airline.VJ l f h
      simp [this]
  have h2 : (cheapOpt Airline.VNA l).toList.filter (fun f => f.airline == Airline.VNA) =
      (cheapOpt Airline.VNA l).toList := by
    rcases h : cheapOpt Airline.VNA l with _ | f
    · simp
    · have := cheapOpt_airline Airline.VNA l f h
      simp [this]
  rw [h1, h2, List.nil_append]

/-- Reversing the arguments of `lexCmp` negates the result. -/
theorem lexCmp_rev : ∀ a b : List Char, lexCmp b a = - lexCmp a b := by
  intro a
  induction a with
  | nil =>
    intro b
    cases b <;> simp [lexCmp]
  | cons x xs ih =>
    intro b
    cases b with
    | nil => simp [lexCmp]
    | cons y ys =>
      unfold lexCmp
      by_cases h1 : x.toNat < y.toNat
      · have h2 : ¬ y.toNat < x.toNat := by omega
        simp [h1, h2]
      · by_cases h2 : y.toNat < x.toNat
        · simp [h1, h2]
        · simp [h1, h2, ih ys]

/-- Asymmetry of the strict part of `lexCmp`. -/
theorem lexCmp_asym (a b : List Char) (h : lexCmp a b < 0) : ¬ lexCmp b a < 0 := by
  rw [lexCmp_rev a b]
  omega

/-- Transitivity of the strict part of `lexCmp`. -/
theorem lexCmp_trans : ∀ a b c : List Char,
    lexCmp a b < 0 → lexCmp b c < 0 → lexCmp a c < 0 := by
  intro a
  induction a with
  | nil =>
    intro b c hab hbc
    cases b with
    | nil => simp [lexCmp] at hab
    | cons y ys =>
      cases c with
      | nil => simp [lexCmp] at hbc
      | cons z zs => simp [lexCmp]
  | cons x xs ih =>
    intro b c hab hbc
    cases b with
    | nil => simp [lexCmp] at hab
    | cons y ys =>
      cases c with
      | nil => simp [lexCmp] at hbc
      | cons z zs =>
        unfold lexCmp at hab hbc ⊢
        by_cases hxy : x.toNat < y.toNat
        · by_cases hyz : y.toNat < z.toNat
          · have : x.toNat < z.toNat := by omega
            simp [this]
          · by_cases hzy : z.toNat < y.toNat
            · simp [hyz, hzy] at hbc
            · have hyz' : y.toNat = z.toNat := by omega
              have : x.toNat < z.toNat := by omega
              simp [this]
        · by_cases hyx : y.toNat < x.toNat
          · simp [hxy, hyx] at hab
          · have hxy' : x.toNat = y.toNat := by omega
            simp [hxy, hyx] at hab
            by_cases hyz : y.toNat < z.toNat
            · have : x.toNat < z.toNat := by omega
              simp [this]
            · by_cases hzy : z.toNat < y.toNat
              · simp [hyz, hzy] at hbc
              · have hxz : ¬ x.toNat < z.toNat := by omega
                have hzx : ¬ z.toNat < x.toNat := by omega
                simp [hyz, hzy] at hbc
                simp [hxz, hzx]
                exact ih ys zs hab hbc

/-- Asymmetry of the strict part of `flightCmp`, for every sort key. -/
theorem flightCmp_asym (s : String) (a b : Flight)
    (h : flightCmp s a b < 0) : ¬ flightCmp s b a < 0 := by
  unfold flightCmp at h ⊢
  by_cases hp : s = "price"
  · simp [hp] at h ⊢; omega
  · by_cases hd : s = "duration"
    · simp [hp, hd] at h ⊢
      rcases h1 : parseDurationKey a.duration with _ | x <;>
        rcases h2 : parseDurationKey b.duration with _ | y <;>
          simp [h1, h2] at h ⊢
      omega
    · by_cases ht : s = "departure"
      · simp [hp, hd, ht] at h ⊢
        have := lexCmp_asym _ _ h
        omega
      · simp [hp, hd, ht] at h

/-- Transitivity of the strict part of `flightCmp`, for every sort key. -/
theorem flightCmp_trans (s : String) (a b c : Flight)
    (hab : flightCmp s a b < 0) (hbc : flightCmp s b c < 0) : flightCmp s a c < 0 := by
  unfold flightCmp at hab hbc ⊢
  by_cases hp : s = "price"
  · simp [hp] at hab hbc ⊢; omega
  · by_cases hd : s = "duration"
    · simp [hp, hd] at hab hbc ⊢
      rcases h1 : parseDurationKey a.duration with _ | x <;>
        rcases h2 : parseDurationKey b.duration with _ | y <;>
          rcases h3 : parseDurationKey c.duration with _ | z <;>
            simp [h1, h2, h3] at hab hbc ⊢
      omega
    · by_cases ht : s = "departure"
      · simp [hp, hd, ht] at hab hbc ⊢
        exact lexCmp_trans _ _ _ hab hbc
      · simp [hp, hd, ht] at hab

/-- The conjunction of every filter condition a flight surviving stages 1–3
must satisfy, each guarded by whether its stage applies. -/
def keepInvariant (o : FilterOptions) (f : Flight) : Prop :=
  (0 < o.airlines.length → o.airlines.contains f.airline = true) ∧
  (o.directFlightsOnly = true → directPred f = true) ∧
  (o.show2pc = true → twoBagPred f = true)

/-- Surviving stage 1 means membership plus, when the stage applies, the
airline condition. -/
theorem mem_airlineStep (o : FilterOptions) (l : List Flight) (f : Flight)
    (h : f ∈ airlineStep o l) :
    f ∈ l ∧ (0 < o.airlines.length → o.airlines.contains f.airline = true) := by
  unfold airlineStep at h
  by_cases hc : 0 < o.airlines.length
  · rw [if_pos hc] at h
    have := List.mem_filter.mp h
    exact ⟨this.1, fun _ => this.2⟩
  · rw [if_neg hc] at h
    exact ⟨h, fun hcon => absurd hcon hc⟩

/-- Surviving stage 2 means membership plus, when the stage applies, the
direct-flight condition. -/
theorem mem_directStep (o : FilterOptions) (l : List Flight) (f : Flight)
    (h : f ∈ directStep o l) :
    f ∈ l ∧ (o.directFlightsOnly = true → directPred f = true) := by
  unfold directStep at h
  by_cases hc : o.directFlightsOnly
  · rw [if_pos hc] at h
    have := List.mem_filter.mp h
    exact ⟨this.1, fun _ => this.2⟩
  · rw [if_neg hc] at h
    exact ⟨h, fun hcon => absurd hcon hc⟩

/-- Surviving stage 3 means membership plus, when the stage applies, the 2pc
condition. -/
theorem mem_bagStep (o : FilterOptions) (l : List Flight) (f : Flight)
    (h : f ∈ bagStep o l) :
    f ∈ l ∧ (o.show2pc = true → twoBagPred f = true) := by
  unfold bagStep at h
  by_cases hc : o.show2pc
  · rw [if_pos hc] at h
    have := List.mem_filter.mp h
    exact ⟨this.1, fun _ => this.2⟩
  · rw [if_neg hc] at h
    exact ⟨h, fun hcon => absurd hcon hc⟩

/-- Every flight surviving stages 1–3 satisfies all applicable conditions. -/
theorem mem_preFiltered (o : FilterOptions) (l : List Flight) (f : Flight)
    (h : f ∈ preFiltered o l) : f ∈ l ∧ keepInvariant o f := by
  unfold preFiltered at h
  obtain ⟨h2, hbag⟩ := mem_bagStep o _ f h
  obtain ⟨h1, hdir⟩ := mem_directStep o _ f h2
  obtain ⟨h0, hair⟩ := mem_airlineStep o l f h1
  exact ⟨h0, hair, hdir, hbag⟩

/-- Stages 1–3 leave untouched any list all of whose flights already satisfy
every applicable condition. -/
theorem preFiltered_eq_self (o : FilterOptions) (l : List Flight)
    (h : ∀ f ∈ l, keepInvariant o f) : preFiltered o l = l := by
  have h1 : airlineStep o l = l := by
    unfold airlineStep
    by_cases hc : 0 < o.airlines.length
    · rw [if_pos hc]
      exact List.filter_eq_self.mpr (fun f hf => (h f hf).1 hc)
    · rw [if_neg hc]
  have h2 : directStep o l = l := by
    unfold directStep
    by_cases hc : o.directFlightsOnly
    · rw [if_pos hc]
      exact List.filter_eq_self.mpr (fun f hf => (h f hf).2.1 hc)
    · rw [if_neg hc]
  have h3 : bagStep o l = l := by
    unfold bagStep
    by_cases hc : o.show2pc
    · rw [if_pos hc]
      exact List.filter_eq_self.mpr (fun f hf => (h f hf).2.2 hc)
    · rw [if_neg hc]
  unfold preFiltered
  rw [h1, h2, h3]

/-- Stage 4 only returns flights of its input. -/
theorem mem_cheapestStep (o : FilterOptions) (l : List Flight) (f : Flight)
    (h : f ∈ cheapestStep o l) : f ∈ l := by
  unfold cheapestStep at h
  by_cases hc : o.showCheapestOnly
  · rw [if_pos hc] at h
    rcases List.mem_append.mp h with h' | h'
    · rcases hv : cheapOpt Airline.VJ l with _ | g
      · rw [hv] at h'; simp at h'
      · rw [hv] at h'; simp at h'
        exact h' ▸ cheapOpt_mem _ _ _ hv
    · rcases hv : cheapOpt Airline.VNA l with _ | g
      · rw [hv] at h'; simp at h'
      · rw [hv] at h'; simp at h'
        exact h' ▸ cheapOpt_mem _ _ _ hv
  · rw [if_neg hc] at h
    exact h

/-- Every pipeline output flight survived stages 1–3, hence satisfies every
applicable filter condition. -/
theorem mem_evaluate (o : FilterOptions) (l : List Flight) (f : Flight)
    (h : f ∈ filterAndSortFlights o l) : f ∈ preFiltered o l ∧ keepInvariant o f := by
  unfold filterAndSortFlights sortStep at h
  have h1 : f ∈ cheapestStep o (preFiltered o l) := (sortCmp_perm _ _).mem_iff.mp h
  have h2 : f ∈ preFiltered o l := mem_cheapestStep o _ f h1
  exact ⟨h2, (mem_preFiltered o l f h2).2⟩

/-- Under `showCheapestOnly`, rebuilding the per-airline candidates from any
permutation of the two-candidate list reproduces the candidates themselves. -/
theorem cheapOpt_of_perm (l m : List Flight)
    (hm : List.Perm m ((cheapOpt Airline.VJ l).toList ++ (cheapOpt Airline.VNA l).toList)) :
    cheapOpt Airline.VJ m = cheapOpt Airline.VJ l ∧
    cheapOpt Airline.VNA m = cheapOpt Airline.VNA l := by
  constructor
  · have hfilter : List.Perm (m.filter (fun f => f.airline == Airline.VJ))
        (((cheapOpt Airline.VJ l).toList ++ (cheapOpt Airline.VNA l).toList).filter
          (fun f => f.airline == Airline.VJ)) := hm.filter _
    rw [kList_filter_VJ] at hfilter
    rcases hv : cheapOpt Airline.VJ l with _ | g
    · rw [hv] at hfilter
      have : m.filter (fun f => f.airline == Airline.VJ) = [] := by
        simpa using hfilter.eq_nil
      unfold cheapOpt
      rw [this]
    · rw [hv] at hfilter
      have : m.filter (fun f => f.airline == Airline.VJ) = [g] := by
        simpa using List.perm_singleton.mp (by simpa using hfilter)
      unfold cheapOpt
      rw [this]
      simp [jsReduceMin]
  · have hfilter : List.Perm (m.filter (fun f => f.airline == Airline.VNA))
        (((cheapOpt Airline.VJ l).toList ++ (cheapOpt Airline.VNA l).toList).filter
          (fun f => f.airline == Airline.VNA)) := hm.filter _
    rw [kList_filter_VNA] at hfilter
    rcases hv : cheapOpt Airline.VNA l with _ | g
    · rw [hv] at hfilter
      have : m.filter (fun f => f.airline == Airline.VNA) = [] := by
        simpa using hfilter.eq_nil
      unfold cheapOpt
      rw [this]
    · rw [hv] at hfilter
      have : m.filter (fun f => f.airline == Airline.VNA) = [g] := by
        simpa using List.perm_singleton.mp (by simpa using hfilter)
      unfold cheapOpt
      rw [this]
      simp [jsReduceMin]

/-- C7: for every flight sequence and every FilterConfiguration, the
filter/sort pipeline is idempotent — applying `filterAndSortFlights` to its
own output under the same configuration returns the same sequence. -/
theorem evaluate_idempotent (o : FilterOptions) (l : List Flight) :
    filterAndSortFlights o (filterAndSortFlights o l) = filterAndSortFlights o l := by
  have hinv : ∀ f ∈ filterAndSortFlights o l, keepInvariant o f :=
    fun f hf => (mem_evaluate o l f hf).2
  have hpre : preFiltered o (filterAndSortFlights o l) = filterAndSortFlights o l :=
    preFiltered_eq_self o _ hinv
  by_cases hco : o.showCheapestOnly = true
  · have hstep : ∀ m, filterAndSortFlights o m =
        sortStep o ((cheapOpt Airline.VJ (preFiltered o m)).toList ++
                    (cheapOpt Airline.VNA (preFiltered o m)).toList) := by
      intro m
      unfold filterAndSortFlights cheapestStep
      rw [if_pos hco]
    have hperm : List.Perm (filterAndSortFlights o l)
        ((cheapOpt Airline.VJ (preFiltered o l)).toList ++
         (cheapOpt Airline.VNA (preFiltered o l)).toList) := by
      rw [hstep l]
      exact sortCmp_perm _ _
    obtain ⟨hvj, hvna⟩ := cheapOpt_of_perm (preFiltered o l) (filterAndSortFlights o l) hperm
    rw [hstep (filterAndSortFlights o l), hpre, hvj, hvna, ← hstep l]
  · have hch : ∀ m, cheapestStep o m = m := by
      intro m
      unfold cheapestStep
      rw [if_neg hco]
    have hstep : ∀ m, filterAndSortFlights o m = sortStep o (preFiltered o m) := by
      intro m
      unfold filterAndSortFlights
      rw [hch]
    rw [hstep (filterAndSortFlights o l), hpre, hstep l]
    unfold sortStep
    exact sortCmp_idem _ (fun a b h => flightCmp_asym o.sortBy a b h)
      (fun a b c h1 h2 => flightCmp_trans o.sortBy a b c h1 h2) _

/-- Membership in the two-candidate list of stage 4 pins the member as one of
the two per-airline cheapest flights. -/
theorem mem_candList (l : List Flight) (f : Flight)
    (h : f ∈ (cheapOpt Airline.VJ l).toList ++ (cheapOpt Airline.VNA l).toList) :
    cheapOpt Airline.VJ l = some f ∨ cheapOpt Airline.VNA l = some f := by
  rcases List.mem_append.mp h with h' | h'
  · left
    rcases hv : cheapOpt Airline.VJ l with _ | g
    · rw [hv] at h'; simp at h'
    · rw [hv] at h'; simp at h'; rw [h']
  · right
    rcases hv : cheapOpt Airline.VNA l with _ | g
    · rw [hv] at h'; simp at h'
    · rw [hv] at h'; simp at h'; rw [h']

/-- The default filter configuration used for concrete instances: both
airlines enabled, all three reduction flags on, sorted by price. -/
def oW : FilterOptions := resetFilters [Airline.VJ, Airline.VNA]

/-- C1 (amended): under `cheapestOnly`, the output has at most one flight per
airline, each output flight is a price minimum of its airline group within
the pre-reduction filtered input, and every same-airline flight occurring
strictly after the kept one in that group is strictly more expensive — i.e.
price ties are broken towards the last-encountered flight, not the first. -/
theorem cheapest_reduction_lastTie (o : FilterOptions) (l : List Flight)
    (hco : o.showCheapestOnly = true) :
    (∀ a : Airline,
      ((filterAndSortFlights o l).filter (fun f => f.airline == a)).length ≤ 1) ∧
    (∀ f ∈ filterAndSortFlights o l, ∀ g ∈ preFiltered o l,
      g.airline = f.airline → f.price ≤ g.price) ∧
    (∀ f ∈ filterAndSortFlights o l, ∃ l1 l2,
      (preFiltered o l).filter (fun g => g.airline == f.airline) = l1 ++ f :: l2 ∧
      ∀ g ∈ l2, f.price < g.price) := by
  have hk : filterAndSortFlights o l =
      sortStep o ((cheapOpt Airline.VJ (preFiltered o l)).toList ++
                  (cheapOpt Airline.VNA (preFiltered o l)).toList) := by
    unfold filterAndSortFlights cheapestStep
    rw [if_pos hco]
  have hperm : List.Perm (filterAndSortFlights o l)
      ((cheapOpt Airline.VJ (preFiltered o l)).toList ++
       (cheapOpt Airline.VNA (preFiltered o l)).toList) := by
    rw [hk]; exact sortCmp_perm _ _
  refine ⟨?_, ?_, ?_⟩
  · intro a
    have hlen : ((filterAndSortFlights o l).filter (fun f => f.airline == a)).length =
        (((cheapOpt Airline.VJ (preFiltered o l)).toList ++
          (cheapOpt Airline.VNA (preFiltered o l)).toList).filter
            (fun f => f.airline == a)).length :=
      (hperm.filter _).length_eq
    rw [hlen]
    cases a with
    | VJ =>
      rw [kList_filter_VJ]
      rcases cheapOpt Airline.VJ (preFiltered o l) with _ | g <;> simp
    | VNA =>
      rw [kList_filter_VNA]
      rcases cheapOpt Airline.VNA (preFiltered o l) with _ | g <;> simp
  · intro f hf g hg hga
    rcases mem_candList _ f (hperm.mem_iff.mp hf) with hv | hv
    · have ha := cheapOpt_airline _ _ _ hv
      exact cheapOpt_min _ _ _ hv g hg (by rw [hga, ha])
    · have ha := cheapOpt_airline _ _ _ hv
      exact cheapOpt_min _ _ _ hv g hg (by rw [hga, ha])
  · intro f hf
    rcases mem_candList _ f (hperm.mem_iff.mp hf) with hv | hv
    · have ha := cheapOpt_airline _ _ _ hv
      rw [ha]
      exact cheapOpt_lastMin _ _ _ hv
    · have ha := cheapOpt_airline _ _ _ hv
      rw [ha]
      exact cheapOpt_lastMin _ _ _ hv

/-- Witness for C1's theorem at a concrete input: two VJ flights priced 100
and 90; the 90-priced flight is the kept minimum. -/
theorem cheapest_reduction_lastTie_witness :
    (mkFlight "b" Airline.VJ 90).price ≤ (mkFlight "a" Airline.VJ 100).price :=
  (cheapest_reduction_lastTie oW [mkFlight "a" Airline.VJ 100, mkFlight "b" Airline.VJ 90]
      rfl).2.1
    (mkFlight "b" Airline.VJ 90) (by decide)
    (mkFlight "a" Airline.VJ 100) (by decide) (by decide)

/-- Counterexample to C1 as stated: two same-airline flights with equal price
100; the source's reduce keeps the second (`prev.price < current.price`
is false on ties), so the first-encountered flight is dropped. -/
theorem cheapest_firstTie_counterexample :
    filterAndSortFlights oW [mkFlight "a" Airline.VJ 100, mkFlight "b" Airline.VJ 100] =
      [mkFlight "b" Airline.VJ 100] ∧
    mkFlight "b" Airline.VJ 100 ≠ mkFlight "a" Airline.VJ 100 := by
  constructor
  · decide
  · decide

/-- C2: with `show2pc` on, stage 3 retains a flight exactly when its airline
is VJ, or its airline is VNA and its baggage type is VFR — the inclusive-OR
precedence `VJ ∨ (VNA ∧ VFR)` of the source line. -/
theorem twoBag_stage_iff (o : FilterOptions) (l : List Flight) (f : Flight)
    (h2 : o.show2pc = true) :
    f ∈ bagStep o l ↔ f ∈ l ∧ (f.airline = Airline.VJ ∨
      (f.airline = Airline.VNA ∧ f.baggageType = "VFR")) := by
  unfold bagStep
  rw [if_pos h2, List.mem_filter]
  constructor
  · rintro ⟨hm, hp⟩
    refine ⟨hm, ?_⟩
    unfold twoBagPred at hp
    simpa using hp
  · rintro ⟨hm, hp⟩
    refine ⟨hm, ?_⟩
    unfold twoBagPred
    simpa using hp

/-- Witness for C2's theorem: a VNA flight with VFR baggage is retained. -/
theorem twoBag_stage_iff_witness :
    mkFlight "w2" Airline.VNA 50 ∈ bagStep oW [mkFlight "w2" Airline.VNA 50] :=
  (twoBag_stage_iff oW [mkFlight "w2" Airline.VNA 50] (mkFlight "w2" Airline.VNA 50)
      rfl).mpr ⟨by decide, Or.inr ⟨rfl, rfl⟩⟩

/-- C10: under `cheapestOnly` with price sort, when the output holds a VJ
flight and a VNA flight of equal price, the output is exactly the VJ flight
followed by the VNA flight, whatever the input order was. -/
theorem tie_orders_VJ_before_VNA (o : FilterOptions) (l : List Flight) (f g : Flight)
    (hco : o.showCheapestOnly = true) (hsort : o.sortBy = "price")
    (hf : f ∈ filterAndSortFlights o l) (hg : g ∈ filterAndSortFlights o l)
    (hfa : f.airline = Airline.VJ) (hga : g.airline = Airline.VNA)
    (hpeq : f.price = g.price) :
    filterAndSortFlights o l = [f, g] := by
  have hk : filterAndSortFlights o l =
      sortStep o ((cheapOpt Airline.VJ (preFiltered o l)).toList ++
                  (cheapOpt Airline.VNA (preFiltered o l)).toList) := by
    unfold filterAndSortFlights cheapestStep
    rw [if_pos hco]
  have hperm : List.Perm (filterAndSortFlights o l)
      ((cheapOpt Airline.VJ (preFiltered o l)).toList ++
       (cheapOpt Airline.VNA (preFiltered o l)).toList) := by
    rw [hk]; exact sortCmp_perm _ _
  have hvj : cheapOpt Airline.VJ (preFiltered o l) = some f := by
    rcases mem_candList _ f (hperm.mem_iff.mp hf) with hv | hv
    · exact hv
    · have := cheapOpt_airline _ _ _ hv
      rw [hfa] at this
      exact absurd this (by decide)
  have hvna : cheapOpt Airline.VNA (preFiltered o l) = some g := by
    rcases mem_candList _ g (hperm.mem_iff.mp hg) with hv | hv
    · have := cheapOpt_airline _ _ _ hv
      rw [hga] at this
      exact absurd this (by decide)
    · exact hv
  rw [hk, hvj, hvna]
  have hcmp : flightCmp o.sortBy g f = 0 := by
    rw [hsort]
    unfold flightCmp
    simp [hpeq]
  unfold sortStep sortCmp
  simp [insertCmp, hcmp]

/-- Witness for C10's theorem: equal-priced cheapest VJ and VNA flights come
out VJ-first even though VNA came first in the input. -/
theorem tie_orders_VJ_before_VNA_witness :
    filterAndSortFlights oW [mkFlight "n" Airline.VNA 80, mkFlight "j" Airline.VJ 80] =
      [mkFlight "j" Airline.VJ 80, mkFlight "n" Airline.VNA 80] :=
  tie_orders_VJ_before_VNA oW [mkFlight "n" Airline.VNA 80, mkFlight "j" Airline.VJ 80]
    (mkFlight "j" Airline.VJ 80) (mkFlight "n" Airline.VNA 80)
    rfl rfl (by decide) (by decide) rfl rfl rfl

/-- C4 (amended): from a configuration with both reduction flags set, the
first `handleShowMore` clears only `showCheapestOnly`, the second clears only
`directFlightsOnly`, the third clears `show2pc` via the fallback branch, and
only from there on further calls leave the configuration unchanged. -/
theorem showMore_ladder (o : FilterOptions) (h1 : o.showCheapestOnly = true)
    (h2 : o.directFlightsOnly = true) :
    handleShowMore o = { o with showCheapestOnly := false } ∧
    handleShowMore (handleShowMore o) =
      { o with showCheapestOnly := false, directFlightsOnly := false } ∧
    handleShowMore (handleShowMore (handleShowMore o)) =
      { o with showCheapestOnly := false, directFlightsOnly := false, show2pc := false } ∧
    ∀ n, Nat.iterate handleShowMore n
        (handleShowMore (handleShowMore (handleShowMore o))) =
      handleShowMore (handleShowMore (handleShowMore o)) := by
  have e1 : handleShowMore o = { o with showCheapestOnly := false } := by
    unfold handleShowMore
    rw [if_pos h1]
  have e2 : handleShowMore { o with showCheapestOnly := false } =
      { o with showCheapestOnly := false, directFlightsOnly := false } := by
    unfold handleShowMore
    simp [h2]
  have e3 : handleShowMore { o with showCheapestOnly := false, directFlightsOnly := false } =
      { o with showCheapestOnly := false, directFlightsOnly := false, show2pc := false } := by
    unfold handleShowMore
    simp
  have efix : handleShowMore
      { o with showCheapestOnly := false, directFlightsOnly := false, show2pc := false } =
      { o with showCheapestOnly := false, directFlightsOnly := false, show2pc := false } := by
    unfold handleShowMore
    simp
  refine ⟨e1, by rw [e1, e2], by rw [e1, e2, e3], ?_⟩
  intro n
  rw [e1, e2, e3]
  exact Function.iterate_fixed efix n

/-- Witness for C4's theorem at the reset configuration. -/
theorem showMore_ladder_witness :
    handleShowMore (handleShowMore (handleShowMore oW)) =
      { oW with showCheapestOnly := false, directFlightsOnly := false, show2pc := false } :=
  (showMore_ladder oW rfl rfl).2.2.1

/-- Counterexample to C4 as stated: the third `handleShowMore` call is not a
no-op — starting from the reset configuration it flips `show2pc` off. -/
theorem showMore_third_not_noop :
    handleShowMore (handleShowMore (handleShowMore oW)) ≠
      handleShowMore (handleShowMore oW) := by
  decide

/-- `allFlights` accumulation of `handleSearch`: folding list append equals
concatenation. -/
theorem foldl_append_eq_join (ls : List (List Flight)) (acc : List Flight) :
    ls.foldl (fun acc b => acc ++ b) acc = acc ++ ls.flatten := by
  induction ls generalizing acc with
  | nil => simp
  | cons b bs ih => simp [ih, List.append_assoc]

/-- A guarded boolean keep-or-clear is a conjunction. -/
theorem if_bool_eq_and (c b : Bool) : (if c = true then b else false) = (c && b) := by
  cases c <;> simp

/-- C5 (amended): on fan-out completion, `directFlightsOnly` survives exactly
when it was set and some fulfilled flight has a zero-stop departure leg (the
return leg is not consulted), and `show2pc` survives exactly when it was set
and some fulfilled flight is VNA with VFR baggage (a VJ flight does not
count); `showCheapestOnly` and the accumulated flights are untouched and
loading ends. -/
theorem autoAdjust_on_settle (s : AppState) (fulfilled : List (List Flight)) :
    ((step s (Event.fanoutSettled fulfilled)).filters.directFlightsOnly = true ↔
      s.filters.directFlightsOnly = true ∧
        ∃ f ∈ fulfilled.flatten, f.departure.stops = 0) ∧
    ((step s (Event.fanoutSettled fulfilled)).filters.show2pc = true ↔
      s.filters.show2pc = true ∧
        ∃ f ∈ fulfilled.flatten, f.airline = Airline.VNA ∧ f.baggageType = "VFR") ∧
    (step s (Event.fanoutSettled fulfilled)).filters.showCheapestOnly =
      s.filters.showCheapestOnly ∧
    (step s (Event.fanoutSettled fulfilled)).flights = s.flights ∧
    (step s (Event.fanoutSettled fulfilled)).loading = false := by
  unfold step autoAdjust
  simp only [foldl_append_eq_join, List.nil_append, if_bool_eq_and]
  refine ⟨?_, ?_⟩
  · simp only [Bool.and_eq_true, List.any_eq_true, beq_iff_eq]
    tauto
  · simp only [Bool.and_eq_true, List.any_eq_true, beq_iff_eq]
    tauto

/-- A round-trip VJ flight: zero stops out, two stops back, baggage class X. -/
def fMixed : Flight :=
  { id := "m", airline := Airline.VJ, price := 100,
    departure := { airport := "SGN", date := "2025-01-01", time := "08:00", stops := 0 },
    ret := some { airport := "HAN", date := "2025-01-05", time := "19:00", stops := 2 },
    duration := "5h", baggageType := "X", availableSeats := 3 }

/-- A mid-search state with the reset configuration, used as the state in
which a fan-out completes. -/
def sW : AppState :=
  { flights := [], loading := true, error := none, searchPerformed := true, filters := oW }

/-- Counterexample to C5 as stated: `fMixed` fails the round-trip direct
predicate yet `directFlightsOnly` is not downgraded (the code checks only the
departure leg), and `fMixed` satisfies the two-bag predicate (it is VJ) yet
`show2pc` is downgraded (the code looks only for VNA-with-VFR). -/
theorem autoAdjust_counterexample :
    directPred fMixed = false ∧ twoBagPred fMixed = true ∧
    (step sW (Event.fanoutSettled [[fMixed]])).filters.directFlightsOnly = true ∧
    (step sW (Event.fanoutSettled [[fMixed]])).filters.show2pc = false := by
  decide

/-- A total relation is pairwise on every list. -/
theorem pairwise_of_total (R : Flight → Flight → Prop) (h : ∀ a b, R a b) :
    ∀ l : List Flight, List.Pairwise R l := by
  intro l
  induction l with
  | nil => exact List.Pairwise.nil
  | cons a t ih => exact List.Pairwise.cons (fun y _ => h a y) ih

/-- An unrecognized sort key hits the `default` branch: the comparator is
constantly zero. -/
theorem flightCmp_default (s : String) (h1 : s ≠ "price") (h2 : s ≠ "duration")
    (h3 : s ≠ "departure") (a b : Flight) : flightCmp s a b = 0 := by
  unfold flightCmp
  rw [if_neg h1, if_neg h2, if_neg h3]

/-- C9 (amended): with a sort key outside the recognized enumeration the
pipeline raises nothing and the sort stage is the identity — the sequence
leaves stages 1–4 in unchanged order (the `default: return 0` branch makes
the comparator constantly zero, and the evaluation is total for every key). -/
theorem unrecognized_sortBy_silent (o : FilterOptions) (l : List Flight)
    (h1 : o.sortBy ≠ "price") (h2 : o.sortBy ≠ "duration") (h3 : o.sortBy ≠ "departure") :
    filterAndSortFlights o l = cheapestStep o (preFiltered o l) := by
  unfold filterAndSortFlights sortStep
  apply sortCmp_eq_self
  show List.Pairwise _ _
  apply pairwise_of_total
  intro a b
  rw [flightCmp_default o.sortBy h1 h2 h3]
  omega

/-- The unrecognized-key configuration used in concrete instances: every
filter stage off except airline inclusion, sort key `"random"`. -/
def o9 : FilterOptions :=
  { airlines := [Airline.VJ, Airline.VNA], showCheapestOnly := false,
    directFlightsOnly := false, show2pc := false, sortBy := "random" }

/-- Witness for C9's theorem at the `"random"` sort key. -/
theorem unrecognized_sortBy_silent_witness :
    filterAndSortFlights o9 [mkFlight "x" Airline.VJ 200] =
      cheapestStep o9 (preFiltered o9 [mkFlight "x" Airline.VJ 200]) :=
  unrecognized_sortBy_silent o9 [mkFlight "x" Airline.VJ 200]
    (by decide) (by decide) (by decide)

/-- Counterexample to C9 as stated: with sort key `"random"` the pipeline
does not fail fast — it returns the sequence with its order untouched, here
an out-of-price-order pair passed through unchanged. -/
theorem unrecognized_sortBy_counterexample :
    filterAndSortFlights o9 [mkFlight "x" Airline.VJ 200, mkFlight "y" Airline.VJ 100] =
      [mkFlight "x" Airline.VJ 200, mkFlight "y" Airline.VJ 100] ∧
    (mkFlight "y" Airline.VJ 100).price < (mkFlight "x" Airline.VJ 200).price := by
  constructor
  · decide
  · decide

/-- C8 (amended): the pipeline is deterministic, and the caller's array is
unchanged by evaluation whenever at least one filter stage applies; when no
stage applies (`airlines` empty, all three flags off) the in-place
`Array.prototype.sort` mutates the caller's array into the sorted output. -/
theorem evaluate_frame (o : FilterOptions) (l : List Flight)
    (h : o.airlines ≠ [] ∨ o.directFlightsOnly = true ∨ o.show2pc = true ∨
      o.showCheapestOnly = true) :
    inputAfterEvaluate o l = l := by
  rcases hA : o.airlines with _ | ⟨a, as⟩
  · rcases h with h | h | h | h
    · exact absurd hA h
    · rw [inputAfterEvaluate, hA]
      simp [h]
    · rw [inputAfterEvaluate, hA]
      simp [h]
    · rw [inputAfterEvaluate, hA]
      simp [h]
  · rw [inputAfterEvaluate, hA]
    simp

/-- Witness for C8's theorem: with the reset configuration the caller's array
is untouched. -/
theorem evaluate_frame_witness :
    inputAfterEvaluate oW [mkFlight "x" Airline.VJ 200, mkFlight "y" Airline.VJ 100] =
      [mkFlight "x" Airline.VJ 200, mkFlight "y" Airline.VJ 100] :=
  evaluate_frame oW [mkFlight "x" Airline.VJ 200, mkFlight "y" Airline.VJ 100]
    (Or.inl (by decide))

/-- The no-stage configuration under which `filtered` stays aliased to the
input array. -/
def o8 : FilterOptions :=
  { airlines := [], showCheapestOnly := false, directFlightsOnly := false,
    show2pc := false, sortBy := "price" }

/-- Counterexample to C8 as stated: with no filter stage applying, the sort
runs in place on the caller's array, which afterwards differs from the
sequence that was passed in. -/
theorem evaluate_frame_counterexample :
    inputAfterEvaluate o8 [mkFlight "x" Airline.VJ 200, mkFlight "y" Airline.VJ 100] ≠
      [mkFlight "x" Airline.VJ 200, mkFlight "y" Airline.VJ 100] ∧
    inputAfterEvaluate o8 [mkFlight "x" Airline.VJ 200, mkFlight "y" Airline.VJ 100] =
      [mkFlight "y" Airline.VJ 100, mkFlight "x" Airline.VJ 200] := by
  constructor
  · decide
  · decide

/-- The stale flight delivered by a superseded search's fetch. -/
def fStale : Flight := mkFlight "stale" Airline.VJ 123

/-- Counterexample to C3 as stated: search A starts, search B starts while
A's fan-out is pending, then A's source resolves; the resolve handler
appends unconditionally (no session comparison exists in the code), so A's
batch lands in B's accumulated flights. -/
theorem stale_merge_counterexample :
    fStale ∈ (runEvents initState
      [Event.startSearch [Airline.VJ, Airline.VNA],
       Event.startSearch [Airline.VJ, Airline.VNA],
       Event.sourceResolve [fStale]]).flights := by
  decide

/-- C3 (amended): whatever history of earlier searches spawned the pending
fetch, a non-empty batch resolving after the latest search started is merged
into that latest search's accumulated flights — the resolve handler performs
no identity or session comparison. -/
theorem stale_batch_appended (es : List Event) (al : List Airline) (b : List Flight)
    (hb : b ≠ []) :
    (runEvents initState (es ++ [Event.startSearch al, Event.sourceResolve b])).flights
      = b := by
  have hsplit : runEvents initState (es ++ [Event.startSearch al, Event.sourceResolve b]) =
      step (step (runEvents initState es) (Event.startSearch al))
        (Event.sourceResolve b) := by
    unfold runEvents
    rw [List.foldl_append]
    rfl
  rw [hsplit]
  have hlen : 0 < b.length := List.length_pos.mpr hb
  unfold step
  simp [hlen]

/-- Witness for C3's theorem: a concrete two-search history with a stale
one-flight batch. -/
theorem stale_batch_appended_witness :
    (runEvents initState
      [Event.startSearch [Airline.VJ], Event.startSearch [Airline.VNA],
       Event.sourceResolve [fStale]]).flights = [fStale] :=
  stale_batch_appended [Event.startSearch [Airline.VJ]] [Airline.VNA] [fStale] (by decide)

/-- Rejected fetches change nothing: the `.catch` handler only logs. -/
theorem runEvents_rejects (s : AppState) (msgs : List String) :
    runEvents s (msgs.map Event.sourceReject) = s := by
  induction msgs generalizing s with
  | nil => rfl
  | cons m ms ih =>
    show runEvents (step s (Event.sourceReject m)) (ms.map Event.sourceReject) = s
    exact ih s

/-- C6 (amended): when every enabled source's fetch rejects, the search ends
with no accumulated flights, loading off, the single error field still `none`
(per-source failures are only logged, no per-source error mapping exists),
and the show-more signal still true, because `showCheapestOnly` is never
auto-downgraded; no event of the run is outside the coordinator's handling. -/
theorem total_failure_outcome (al : List Airline) (msgs : List String) :
    (runEvents initState (Event.startSearch al ::
        (msgs.map Event.sourceReject ++ [Event.fanoutSettled []]))).flights = [] ∧
    (runEvents initState (Event.startSearch al ::
        (msgs.map Event.sourceReject ++ [Event.fanoutSettled []]))).error = none ∧
    (runEvents initState (Event.startSearch al ::
        (msgs.map Event.sourceReject ++ [Event.fanoutSettled []]))).loading = false ∧
    shouldShowMoreButton (runEvents initState (Event.startSearch al ::
        (msgs.map Event.sourceReject ++ [Event.fanoutSettled []]))).filters = true := by
  have hrun : runEvents initState (Event.startSearch al ::
      (msgs.map Event.sourceReject ++ [Event.fanoutSettled []])) =
      step (runEvents (step initState (Event.startSearch al))
        (msgs.map Event.sourceReject)) (Event.fanoutSettled []) := by
    show runEvents (step initState (Event.startSearch al))
        (msgs.map Event.sourceReject ++ [Event.fanoutSettled []]) = _
    unfold runEvents
    rw [List.foldl_append]
    rfl
  rw [hrun, runEvents_rejects]
  refine ⟨rfl, rfl, rfl, rfl⟩

/-- The concrete total-failure run: both sources enabled, both reject. -/
def esC6 : List Event :=
  [Event.startSearch [Airline.VJ, Airline.VNA], Event.sourceReject "vj-error",
   Event.sourceReject "vna-error", Event.fanoutSettled []]

/-- Counterexample to C6 as stated: after total failure the state carries no
per-source error entries (the single error field is `none`) and the
show-more signal is true, not false. -/
theorem total_failure_counterexample :
    (runEvents initState esC6).flights = [] ∧
    (runEvents initState esC6).error = none ∧
    shouldShowMoreButton (runEvents initState esC6).filters = true := by
  refine ⟨rfl, rfl, rfl⟩
